import Mathlib

/-!
A shallow embedding of `rhasspyasr_kaldi_hermes/__init__.py` (the Hermes MQTT
server for Rhasspy ASR using Kaldi), together with theorems checking the
natural-language specification against it.

Modelling conventions:
* raw audio is a list of byte values;
* the transcription engine, silence detector and the external `sox`
  reformatter are opaque collaborators; they are passed in as oracle
  functions, with `Except` results standing for Python exceptions;
* `threading.Event` fields become `Bool` flags, the frame queue becomes a
  `List (Option Bytes)` (FIFO by appending on put; `none` is the
  end-of-stream sentinel `frame_queue.put(None)`);
* the blocking `result_event.wait(timeout=...)` is abstracted: the value of
  `info.result` observed when the wait ends is whatever the interleaving of
  worker-delivery transitions has stored in the state at that point;
* Python float fields (`likelihood`, `seconds`) are modelled as `Int`;
* `self.sessions` (a `dict`) is an association list with insertion-order
  iteration, matching Python dict semantics for the operations used.
-/

namespace Rhasspy

/-- Raw audio bytes (`bytes` in the source). -/
abbrev Bytes := List Nat

/-- `rhasspyasr.Transcription`: the fields read by `finish_session`. -/
structure Transcription where
  text : String
  likelihood : Int
  transcribe_seconds : Int
deriving DecidableEq

/-- Outbound Hermes events produced by the server: `AsrTextCaptured` and
`AsrError` with the fields the source sets. -/
inductive OutEvent where
  | textCaptured (text : String) (likelihood : Int) (seconds : Int)
      (siteId : String) (sessionId : String)
  | asrError (error : String) (context : String)
      (siteId : String) (sessionId : String)
deriving DecidableEq

/-- Is the event an `AsrTextCaptured`? -/
def OutEvent.isCaptured : OutEvent → Bool
  | .textCaptured .. => true
  | .asrError .. => false

/-- The `sessionId` field of an event. -/
def OutEvent.sessionOf : OutEvent → String
  | .textCaptured _ _ _ _ sessionId => sessionId
  | .asrError _ _ _ sessionId => sessionId

/-- `TranscriberInfo`: objects for a single transcriber (the pooled Worker).
`transcriber` is `true` once the worker thread has constructed the engine
instance; `recorder_running` models the recorder's started/stopped state;
the remaining fields mirror the source's attrs. -/
structure TranscriberInfo where
  transcriber : Bool := false
  frame_queue : List (Option Bytes) := []
  ready_event : Bool := false
  result : Option Transcription := none
  result_event : Bool := false
  result_sent : Bool := false
  recorder_running : Bool := false
deriving DecidableEq

/-- Number of end-of-stream sentinels (`None` entries) in a frame queue. -/
def noneCount (q : List (Option Bytes)) : Nat :=
  (q.filter fun c => c.isNone).length

/-- Self-describing WAV frame as read back by `wave.open`:
`getframerate`, `getsampwidth`, `getnchannels`, and the raw sample payload
returned by `readframes(getnframes())`. -/
structure WavData where
  framerate : Nat
  sampwidth : Nat
  nchannels : Nat
  frames : Bytes
deriving DecidableEq

/-- One invocation of the external `sox` reformatter, recording the target
parameters passed on its command line: `-r rate`, `-b bits`, `-c channels`,
and the WAV input piped to it. -/
structure SoxCall where
  rate : Nat
  bits : Nat
  channels : Nat
  input : WavData
deriving DecidableEq

/-- `AsrHermesMqtt._convert_wav`: run `sox` with the configured target
profile (`-r sample_rate -b sample_width*8 -c channels`) on the WAV data and
return its stdout.  The returned list records the reformatter invocations
made (for observability of the call count); an `Except.error` models
`subprocess.run(..., check=True)` raising. -/
def convert_wav (sox : SoxCall → Except String Bytes)
    (sample_rate sample_width channels : Nat) (wav_data : WavData) :
    Except String (Bytes × List SoxCall) :=
  let call : SoxCall := ⟨sample_rate, sample_width * 8, channels, wav_data⟩
  (sox call).map fun out => (out, [call])

/-- `AsrHermesMqtt.maybe_convert_wav`: if the frame's embedded rate, width or
channel count differs from the required profile, convert via `_convert_wav`;
otherwise return the raw sample payload unchanged with no reformatter call. -/
def maybe_convert_wav (sox : SoxCall → Except String Bytes)
    (sample_rate sample_width channels : Nat) (wav : WavData) :
    Except String (Bytes × List SoxCall) :=
  if wav.framerate ≠ sample_rate ∨ wav.sampwidth ≠ sample_width ∨
      wav.nchannels ≠ channels then
    convert_wav sox sample_rate sample_width channels wav
  else
    Except.ok (wav.frames, [])

/-- Lookup in an association list (first match), as Python dict read. -/
def alistLookup : List (String × TranscriberInfo) → String → Option TranscriberInfo
  | [], _ => none
  | (k, v) :: rest, key => if k = key then some v else alistLookup rest key

/-- Remove the first entry with the given key (`dict.pop` removal part). -/
def alistRemove : List (String × TranscriberInfo) → String → List (String × TranscriberInfo)
  | [], _ => []
  | (k, v) :: rest, key => if k = key then rest else (k, v) :: alistRemove rest key

/-- `dict[key] = value`: replace in place when present, append when new. -/
def alistInsert : List (String × TranscriberInfo) → String → TranscriberInfo →
    List (String × TranscriberInfo)
  | [], key, val => [(key, val)]
  | (k, v) :: rest, key, val =>
      if k = key then (key, val) :: rest else (k, v) :: alistInsert rest key val

/-- `list.pop()`: remove and return the LAST element. -/
def popLast : List TranscriberInfo → Option (TranscriberInfo × List TranscriberInfo)
  | [] => none
  | [x] => some (x, [])
  | x :: y :: rest =>
      match popLast (y :: rest) with
      | some (z, l) => some (z, x :: l)
      | none => none

/-- The mutable state of `AsrHermesMqtt`.  `constructions` is the injected
engine-construction counter: it is incremented exactly when a fresh
`TranscriberInfo` is created and its thread constructs the engine.
`session_result_timeout` does not appear because the result wait is
abstracted (see the module comment). -/
structure AsrState where
  enabled : Bool
  siteIds : List String
  sample_rate : Nat
  sample_width : Nat
  channels : Nat
  sessions : List (String × TranscriberInfo)
  free_transcribers : List TranscriberInfo
  first_audio : Bool
  constructions : Nat
deriving DecidableEq

/-- `AsrHermesMqtt.finish_session`: stop the recorder; if the result was not
sent yet, enqueue the sentinel, wait for the result (abstracted: the observed
result is the one currently stored), emit it (or the canonical empty result),
and set `result_sent`.  Returns the updated worker and the yielded events. -/
def finish_session (info : TranscriberInfo) (siteId sessionId : String) :
    TranscriberInfo × List OutEvent :=
  let info1 := { info with recorder_running := false }
  if info1.result_sent then
    (info1, [])
  else
    let info2 := { info1 with frame_queue := info1.frame_queue ++ [none] }
    match info2.result with
    | some t =>
        ({ info2 with result_sent := true },
         [OutEvent.textCaptured t.text t.likelihood t.transcribe_seconds siteId sessionId])
    | none =>
        ({ info2 with result_sent := true },
         [OutEvent.textCaptured "" 0 0 siteId sessionId])

/-- `AsrHermesMqtt.stop_listening`: pop the session (no-op when absent),
finish it, reset the worker's transient state (`result`, `result_event`,
`result_sent`) and append the worker to the free pool.  `finish_session` is
total in this embedding, so the source's `except` branch is unreachable. -/
def stop_listening (st : AsrState) (sessionId siteId : String) :
    AsrState × List OutEvent :=
  match alistLookup st.sessions sessionId with
  | none => (st, [])
  | some info =>
      let fr := finish_session info siteId sessionId
      let info2 := { fr.1 with result := none, result_event := false, result_sent := false }
      ({ st with
          sessions := alistRemove st.sessions sessionId,
          free_transcribers := st.free_transcribers ++ [info2] }, fr.2)

/-- `AsrHermesMqtt.start_listening`: if the session already exists, stop it
first (yielding its results; the source builds `AsrStopListening` with the
default `siteId`).  Then pop a free worker (reuse) or create a fresh one —
the fresh worker's thread constructs the engine, incrementing
`constructions`.  Arm the ready event, start the recorder, register the
session and reset `first_audio`. -/
def start_listening (st : AsrState) (sessionId siteId : String) :
    AsrState × List OutEvent :=
  let stop := if (alistLookup st.sessions sessionId).isSome then
      stop_listening st sessionId "default"
    else (st, [])
  let st1 := stop.1
  match popLast st1.free_transcribers with
  | some (info, rest) =>
      ({ st1 with
          free_transcribers := rest,
          sessions := alistInsert st1.sessions sessionId
            { info with ready_event := true, recorder_running := true },
          first_audio := true }, stop.2)
  | none =>
      ({ st1 with
          constructions := st1.constructions + 1,
          sessions := alistInsert st1.sessions sessionId
            { transcriber := true, ready_event := true, recorder_running := true },
          first_audio := true }, stop.2)

/-- The per-session body of `handle_audio_frame` (inside the `for` loop):
put the normalized chunk on the worker queue, then ask the recorder whether
the voice command ended (`detect`, an oracle; `Except.error` models
`process_chunk` raising, caught by the per-session `except` which yields an
`AsrError` with `context=repr(info.transcriber)`).  On end-of-command,
finish the session. -/
def handleOneSession (detect : String → Bytes → Except String Bool)
    (audio_data : Bytes) (siteId sessionId : String) (info : TranscriberInfo) :
    TranscriberInfo × List OutEvent :=
  let info1 := { info with frame_queue := info.frame_queue ++ [some audio_data] }
  match detect sessionId audio_data with
  | Except.error e => (info1, [OutEvent.asrError e "transcriber" siteId sessionId])
  | Except.ok true => finish_session info1 siteId sessionId
  | Except.ok false => (info1, [])

/-- Iterate `handleOneSession` over all open sessions in insertion order. -/
def handleSessions (detect : String → Bytes → Except String Bool)
    (audio_data : Bytes) (siteId : String) :
    List (String × TranscriberInfo) → List (String × TranscriberInfo) × List OutEvent
  | [] => ([], [])
  | (sessionId, info) :: rest =>
      let r := handleOneSession detect audio_data siteId sessionId info
      let rs := handleSessions detect audio_data siteId rest
      ((sessionId, r.1) :: rs.1, r.2 ++ rs.2)

/-- `AsrHermesMqtt.handle_audio_frame`: convert the WAV first (before the
session loop and outside the per-session `try`), then add the audio to every
open session.  A conversion failure propagates out of the generator before
any session is touched and before any event is yielded. -/
def handle_audio_frame (sox : SoxCall → Except String Bytes)
    (detect : String → Bytes → Except String Bool)
    (st : AsrState) (wav : WavData) (siteId : String) :
    Except String (AsrState × List OutEvent) :=
  match maybe_convert_wav sox st.sample_rate st.sample_width st.channels wav with
  | Except.error e => Except.error e
  | Except.ok conv =>
      let r := handleSessions detect conv.1 siteId st.sessions
      Except.ok ({ st with sessions := r.1 }, r.2)

/-- `AsrHermesMqtt._check_siteId`: with a configured site list, the payload's
`siteId` must be in it; with no list, all sites pass. -/
def check_siteId (siteIds : List String) (siteId : String) : Bool :=
  if siteIds ≠ [] then siteIds.contains siteId else true

/-- Inbound MQTT messages, already decoded (topic + JSON payload fields). -/
inductive InMessage where
  | toggleOn (siteId : String)
  | toggleOff (siteId : String)
  | startListening (sessionId siteId : String)
  | stopListening (sessionId siteId : String)
  | audioFrame (siteId : String) (wav : WavData)
deriving DecidableEq

/-- `AsrHermesMqtt.on_message`: toggle handling, the enabled gate, then
dispatch.  NOTE (faithful to the source): the second toggle branch is
`elif msg.topic == AsrToggleOn.topic()` — it re-tests the ToggleOn topic —
so a ToggleOff message matches neither branch and `enabled` is never set to
`False`.  The whole body runs under a top-level `try/except` that logs and
swallows any exception, so a conversion failure inside `handle_audio_frame`
yields no events; state mutated before the raise (`first_audio`) persists. -/
def on_message (sox : SoxCall → Except String Bytes)
    (detect : String → Bytes → Except String Bool)
    (st : AsrState) (msg : InMessage) : AsrState × List OutEvent :=
  let st := match msg with
    | InMessage.toggleOn siteId =>
        if check_siteId st.siteIds siteId then { st with enabled := true } else st
    | _ => st
  if !st.enabled then (st, [])
  else
    match msg with
    | InMessage.audioFrame siteId wav =>
        if st.siteIds = [] ∨ st.siteIds.contains siteId then
          let st1 := { st with first_audio := false }
          match handle_audio_frame sox detect st1 wav siteId with
          | Except.error _ => (st1, [])
          | Except.ok r => r
        else (st, [])
    | InMessage.startListening sessionId siteId =>
        if check_siteId st.siteIds siteId then start_listening st sessionId siteId
        else (st, [])
    | InMessage.stopListening sessionId siteId =>
        if check_siteId st.siteIds siteId then stop_listening st sessionId siteId
        else (st, [])
    | _ => (st, [])

/-- Outcome of one engine round inside the worker loop: either
`transcribe_stream` returns a transcription, or it raises. -/
inductive EngineOutcome where
  | ok (t : Transcription)
  | err
deriving DecidableEq

/-- Observable outcome of running `transcribe_proc`: the successive results
delivered, the exception log entries, whether the loop is still alive
(blocked on the ready event) at the end of the given rounds, and how many
engine instances the procedure constructed. -/
structure ProcRun where
  results : List Transcription
  logs : List String
  alive : Bool
  constructions : Nat
deriving DecidableEq

/-- The `while True` loop of `transcribe_proc`, applied to a finite prefix of
engine rounds.  An engine exception jumps to the `except Exception` handler
OUTSIDE the loop, which logs `"session proc"` and falls off the end of the
procedure: the loop terminates and later rounds are never processed. -/
def transcribeProcLoop : List EngineOutcome → ProcRun
  | [] => ⟨[], [], true, 0⟩
  | EngineOutcome.ok t :: rest =>
      let r := transcribeProcLoop rest
      ⟨t :: r.results, r.logs, r.alive, r.constructions⟩
  | EngineOutcome.err :: _ => ⟨[], ["session proc"], false, 0⟩

/-- `transcribe_proc`: construct the engine once (before the loop), then run
the loop. -/
def transcribeProcRun (rounds : List EngineOutcome) : ProcRun :=
  let r := transcribeProcLoop rounds
  { r with constructions := r.constructions + 1 }

/-- The events that can reach one session `sid` between its start and the end
of its life: an explicit `AsrStopListening`, an inbound (already normalized)
audio chunk routed to every open session — whose per-session recorder
verdicts are given by the `detect` oracle, so the chunk is a
detector-signaled end for `sid` exactly when `detect sid chunk = ok true` —
and the worker thread concurrently storing a result and signalling
`result_event`. -/
inductive SessionTrigger where
  | stopMsg (siteId : String)
  | frame (siteId : String) (chunk : Bytes) (detect : String → Bytes → Except String Bool)
  | workerDelivers (t : Transcription)

/-- Does this trigger invoke `finish_session` for session `sid` (when the
session is live)?  `stopMsg` always does; a routed chunk does exactly when
`sid`'s recorder reports end-of-command. -/
def SessionTrigger.isFinalize (t : SessionTrigger) (sid : String) : Bool :=
  match t with
  | .stopMsg _ => true
  | .frame _ chunk detect =>
      match detect sid chunk with
      | Except.ok true => true
      | _ => false
  | .workerDelivers _ => false

/-- Apply one trigger to the server state, as the source dispatches it:
`stopMsg` runs `stop_listening`, a routed chunk runs the session loop of
`handle_audio_frame` over all open sessions, and a worker delivery stores
the result on `sid`'s live worker (the source's lines
`info.result = result; info.result_event.set()`). -/
def applyTrigger (sid : String) (st : AsrState) :
    SessionTrigger → AsrState × List OutEvent
  | SessionTrigger.stopMsg siteId => stop_listening st sid siteId
  | SessionTrigger.frame siteId chunk detect =>
      let r := handleSessions detect chunk siteId st.sessions
      ({ st with sessions := r.1 }, r.2)
  | SessionTrigger.workerDelivers t =>
      match alistLookup st.sessions sid with
      | none => (st, [])
      | some info =>
          let info2 := { info with result := some t, result_event := true }
          ({ st with sessions := alistInsert st.sessions sid info2 }, [])

/-- Run a sequence of triggers, accumulating the emitted events. -/
def runTriggers (sid : String) : AsrState → List SessionTrigger → AsrState × List OutEvent
  | st, [] => (st, [])
  | st, t :: ts =>
      let r := applyTrigger sid st t
      let rs := runTriggers sid r.1 ts
      (rs.1, r.2 ++ rs.2)

/-- Number of `AsrTextCaptured` events carrying `sessionId = sid`. -/
def countCaptured (sid : String) (evs : List OutEvent) : Nat :=
  (evs.filter fun e => e.isCaptured && e.sessionOf == sid).length

/-- Session `sid` is live and not finalized: fresh flag, no sentinel yet. -/
def phaseFresh (sid : String) (st : AsrState) : Prop :=
  ∃ info, alistLookup st.sessions sid = some info ∧
    info.result_sent = false ∧ noneCount info.frame_queue = 0

/-- Session `sid` has been finalized: either still registered with the
delivered flag set and exactly one sentinel enqueued, or already removed by
`stop_listening`. -/
def phaseDone (sid : String) (st : AsrState) : Prop :=
  (∃ info, alistLookup st.sessions sid = some info ∧
      info.result_sent = true ∧ noneCount info.frame_queue = 1) ∨
    alistLookup st.sessions sid = none

/-- Every pooled worker carries at most one sentinel in its queue. -/
def poolOk (st : AsrState) : Prop :=
  ∀ w ∈ st.free_transcribers, noneCount w.frame_queue ≤ 1

/- Concrete fixtures used by witnesses and counterexamples. -/

/-- A `sox` oracle that always succeeds with empty output. -/
def soxOk : SoxCall → Except String Bytes := fun _ => Except.ok []

/-- A `sox` oracle whose subprocess always fails
(`subprocess.run(..., check=True)` raising `CalledProcessError`). -/
def soxFail : SoxCall → Except String Bytes := fun _ => Except.error "CalledProcessError"

/-- A recorder oracle that never reports end of command. -/
def detectNever : String → Bytes → Except String Bool := fun _ _ => Except.ok false

/-- A recorder oracle that always reports end of command. -/
def detectAlways : String → Bytes → Except String Bool := fun _ _ => Except.ok true

/-- A worker fresh out of construction (all transient state cleared). -/
def freshInfo : TranscriberInfo :=
  { transcriber := true }

/-- An enabled server with the default profile, no site restriction and no
activity yet. -/
def st0 : AsrState :=
  ⟨true, [], 16000, 2, 1, [], [], true, 0⟩

/-- An enabled unrestricted server with two open sessions on fresh workers. -/
def stTwo : AsrState :=
  ⟨true, [], 16000, 2, 1, [("s1", freshInfo), ("s2", freshInfo)], [], false, 2⟩

/-- An enabled unrestricted server with one open session on a fresh worker. -/
def stOne : AsrState :=
  ⟨true, [], 16000, 2, 1, [("s1", freshInfo)], [], false, 1⟩

/-- An enabled server restricted to the site list `["kitchen"]`. -/
def stKitchen : AsrState :=
  ⟨true, ["kitchen"], 16000, 2, 1, [], [], true, 0⟩

/-- An enabled server with an empty session registry and one free worker. -/
def stPool : AsrState :=
  ⟨true, [], 16000, 2, 1, [], [freshInfo], false, 1⟩

/-- A WAV frame whose embedded format differs from the default profile. -/
def wavBad : WavData := ⟨8000, 2, 1, [7]⟩

/-- A WAV frame already in the default profile. -/
def wavGood : WavData := ⟨16000, 2, 1, [1, 2, 3]⟩

/-- A trigger sequence combining a detector-signaled end with a repeated
explicit stop. -/
def tsW : List SessionTrigger :=
  [SessionTrigger.frame "default" [5] detectAlways,
   SessionTrigger.stopMsg "default",
   SessionTrigger.stopMsg "default"]

/-! ## Association-list lemmas (Python dict semantics) -/

theorem alistLookup_eq_none_of_not_mem (l : List (String × TranscriberInfo))
    (k : String) (h : k ∉ l.map Prod.fst) : alistLookup l k = none := by
  induction l with
  | nil => rfl
  | cons hd tl ih =>
      simp only [List.map_cons, List.mem_cons, not_or] at h
      obtain ⟨h1, h2⟩ := h
      simpa [alistLookup, Ne.symm h1] using ih h2

theorem alistRemove_fst_sublist (l : List (String × TranscriberInfo)) (k : String) :
    ((alistRemove l k).map Prod.fst).Sublist (l.map Prod.fst) := by
  induction l with
  | nil => simp [alistRemove]
  | cons hd tl ih =>
      by_cases h : hd.1 = k
      · obtain ⟨a, b⟩ := hd
        simp only at h
        simp [alistRemove, h]
      · obtain ⟨a, b⟩ := hd
        simp only at h
        simpa [alistRemove, h] using ih.cons₂ a

theorem alistLookup_remove_self (l : List (String × TranscriberInfo)) (k : String)
    (h : (l.map Prod.fst).Nodup) : alistLookup (alistRemove l k) k = none := by
  induction l with
  | nil => rfl
  | cons hd tl ih =>
      obtain ⟨a, b⟩ := hd
      simp only [List.map_cons, List.nodup_cons] at h
      by_cases hk : a = k
      · subst hk
        simpa [alistRemove] using alistLookup_eq_none_of_not_mem tl a h.1
      · simpa [alistRemove, hk, alistLookup, hk] using ih h.2

theorem alistLookup_insert_self (l : List (String × TranscriberInfo)) (k : String)
    (v : TranscriberInfo) : alistLookup (alistInsert l k v) k = some v := by
  induction l with
  | nil => simp [alistInsert, alistLookup]
  | cons hd tl ih =>
      obtain ⟨a, b⟩ := hd
      by_cases hk : a = k
      · simp [alistInsert, hk, alistLookup]
      · simpa [alistInsert, hk, alistLookup] using ih

theorem alistInsert_fst_of_lookup (l : List (String × TranscriberInfo)) (k : String)
    (v w : TranscriberInfo) (h : alistLookup l k = some w) :
    (alistInsert l k v).map Prod.fst = l.map Prod.fst := by
  induction l with
  | nil => simp [alistLookup] at h
  | cons hd tl ih =>
      obtain ⟨a, b⟩ := hd
      by_cases hk : a = k
      · simp [alistInsert, hk]
      · simp only [alistLookup, hk, if_false] at h
        simp [alistInsert, hk, ih h]

/-! ## Lemmas about the frame router -/

theorem handleSessions_fst (detect : String → Bytes → Except String Bool)
    (audio_data : Bytes) (siteId : String) (l : List (String × TranscriberInfo)) :
    (handleSessions detect audio_data siteId l).1.map Prod.fst = l.map Prod.fst := by
  induction l with
  | nil => rfl
  | cons hd tl ih =>
      obtain ⟨k, i⟩ := hd
      simp [handleSessions, ih]

theorem handleSessions_lookup (detect : String → Bytes → Except String Bool)
    (audio_data : Bytes) (siteId sid : String) (l : List (String × TranscriberInfo)) :
    alistLookup (handleSessions detect audio_data siteId l).1 sid =
      (alistLookup l sid).map
        (fun i => (handleOneSession detect audio_data siteId sid i).1) := by
  induction l with
  | nil => rfl
  | cons hd tl ih =>
      obtain ⟨k, i⟩ := hd
      by_cases hk : k = sid
      · subst hk
        simp [handleSessions, alistLookup]
      · simpa [handleSessions, alistLookup, hk] using ih

theorem countCaptured_append (sid : String) (a b : List OutEvent) :
    countCaptured sid (a ++ b) = countCaptured sid a + countCaptured sid b := by
  simp [countCaptured, List.filter_append]

theorem finish_session_events_session (info : TranscriberInfo)
    (siteId sessionId : String) :
    ∀ e ∈ (finish_session info siteId sessionId).2,
      e.isCaptured = true ∧ e.sessionOf = sessionId := by
  intro e he
  unfold finish_session at he
  by_cases hs : info.result_sent
  · simp [hs] at he
  · cases hr : info.result with
    | some t =>
        simp only [hs, if_neg, hr] at he
        simp at he
        subst he
        exact ⟨rfl, rfl⟩
    | none =>
        simp only [hs, if_neg, hr] at he
        simp at he
        subst he
        exact ⟨rfl, rfl⟩

theorem handleOneSession_events_session
    (detect : String → Bytes → Except String Bool) (audio_data : Bytes)
    (siteId sessionId : String) (info : TranscriberInfo) :
    ∀ e ∈ (handleOneSession detect audio_data siteId sessionId info).2,
      e.sessionOf = sessionId := by
  intro e he
  unfold handleOneSession at he
  cases hd : detect sessionId audio_data with
  | error msg =>
      simp [hd] at he
      subst he
      rfl
  | ok b =>
      cases b with
      | true =>
          simp only [hd] at he
          exact (finish_session_events_session _ _ _ e he).2
      | false => simp [hd] at he

theorem countCaptured_handleOneSession_ne
    (detect : String → Bytes → Except String Bool) (audio_data : Bytes)
    (siteId k sid : String) (info : TranscriberInfo) (h : k ≠ sid) :
    countCaptured sid (handleOneSession detect audio_data siteId k info).2 = 0 := by
  rw [countCaptured, List.length_eq_zero, List.filter_eq_nil_iff]
  intro e he
  have := handleOneSession_events_session detect audio_data siteId k info e he
  simp [this, h]

theorem countCaptured_handleSessions
    (detect : String → Bytes → Except String Bool) (audio_data : Bytes)
    (siteId sid : String) (l : List (String × TranscriberInfo))
    (hnd : (l.map Prod.fst).Nodup) :
    countCaptured sid (handleSessions detect audio_data siteId l).2 =
      (match alistLookup l sid with
       | some i => countCaptured sid (handleOneSession detect audio_data siteId sid i).2
       | none => 0) := by
  induction l with
  | nil => rfl
  | cons hd tl ih =>
      obtain ⟨k, i⟩ := hd
      simp only [List.map_cons, List.nodup_cons] at hnd
      by_cases hk : k = sid
      · subst hk
        have htl : alistLookup tl k = none :=
          alistLookup_eq_none_of_not_mem tl k hnd.1
        have h0 : countCaptured k (handleSessions detect audio_data siteId tl).2 = 0 := by
          rw [ih hnd.2, htl]
        simp [handleSessions, alistLookup, countCaptured_append, h0]
      · have := ih hnd.2
        simp [handleSessions, alistLookup, hk, countCaptured_append,
          countCaptured_handleOneSession_ne detect audio_data siteId k sid i hk, this]

/-- The loop body of `transcribe_proc` constructs no engine; the single
construction happens before the loop. -/
theorem transcribeProcLoop_constructions (rounds : List EngineOutcome) :
    (transcribeProcLoop rounds).constructions = 0 := by
  induction rounds with
  | nil => rfl
  | cons hd tl ih => cases hd <;> simp [transcribeProcLoop, ih]

/-! ## Claim theorems -/

/-- C2: in `finish_session`, when the result was not yet delivered, the
sentinel is enqueued and then: a present `Result` is emitted with its text,
likelihood and seconds; an absent `Result` (timeout, or signal with nothing
stored) yields exactly `text=""`, `likelihood=0`, `seconds=0`; and no error
event is ever emitted from this path. -/
theorem finish_session_emits (info : TranscriberInfo) (siteId sessionId : String)
    (h : info.result_sent = false) :
    (finish_session info siteId sessionId).1.frame_queue =
        info.frame_queue ++ [none] ∧
    (∀ t, info.result = some t →
      (finish_session info siteId sessionId).2 =
        [OutEvent.textCaptured t.text t.likelihood t.transcribe_seconds siteId sessionId]) ∧
    (info.result = none →
      (finish_session info siteId sessionId).2 =
        [OutEvent.textCaptured "" 0 0 siteId sessionId]) ∧
    (∀ e ∈ (finish_session info siteId sessionId).2, e.isCaptured = true) := by
  refine ⟨?_, ?_, ?_, fun e he => (finish_session_events_session info siteId sessionId e he).1⟩
  · unfold finish_session
    cases hr : info.result <;> simp [h, hr]
  · intro t ht
    unfold finish_session
    simp [h, ht]
  · intro ht
    unfold finish_session
    simp [h, ht]

theorem finish_session_emits_witness :
    (finish_session freshInfo "default" "s1").2 =
      [OutEvent.textCaptured "" 0 0 "default" "s1"] :=
  (finish_session_emits freshInfo "default" "s1" rfl).2.2.1 rfl

/-- C3 (counterexample): on an engine exception mid-stream the worker loop
does NOT continue to its next iteration — after an `err` round the loop is
dead and a following round is never processed, its transcription never
delivered. -/
theorem worker_loop_terminates_cex :
    (transcribeProcRun [EngineOutcome.err, EngineOutcome.ok ⟨"hello world", 1, 0⟩]).alive
        = false ∧
    (transcribeProcRun [EngineOutcome.err, EngineOutcome.ok ⟨"hello world", 1, 0⟩]).results
        = [] :=
  ⟨rfl, rfl⟩

/-- C3 (amended): if the transcription engine throws mid-stream, the
exception is caught by the handler outside the `while True` loop and logged
(`"session proc"`), no exception escapes the worker procedure, but the loop
terminates: rounds after the failure are never processed, so the worker
delivers exactly the results of the rounds before the failure. -/
theorem worker_loop_logs_and_exits (pre post : List EngineOutcome)
    (hpre : EngineOutcome.err ∉ pre) :
    (transcribeProcRun (pre ++ EngineOutcome.err :: post)).alive = false ∧
    (transcribeProcRun (pre ++ EngineOutcome.err :: post)).logs = ["session proc"] ∧
    (transcribeProcRun (pre ++ EngineOutcome.err :: post)).results =
      (transcribeProcRun pre).results := by
  induction pre with
  | nil => exact ⟨rfl, rfl, rfl⟩
  | cons hd tl ih =>
      cases hd with
      | ok t =>
          have htl : EngineOutcome.err ∉ tl := fun hm => hpre (List.mem_cons_of_mem _ hm)
          obtain ⟨h1, h2, h3⟩ := ih htl
          simp only [transcribeProcRun, transcribeProcLoop, List.cons_append,
            List.append_eq] at h1 h2 h3 ⊢
          exact ⟨h1, h2, by rw [h3]⟩
      | err => exact absurd (List.mem_cons_self _ _) hpre

theorem worker_loop_logs_and_exits_witness :
    (transcribeProcRun
        [EngineOutcome.ok ⟨"hello world", 1, 0⟩, EngineOutcome.err]).alive = false :=
  (worker_loop_logs_and_exits [EngineOutcome.ok ⟨"hello world", 1, 0⟩] []
    (by decide)).1

/-- C4 (code bug): a `ToggleOff` whose payload passes the site filter (here
the filter is unrestricted, so it passes) leaves `enabled = true` and is a
complete no-op — the source's second toggle branch re-tests the ToggleOn
topic, so the disable transition is unreachable. -/
theorem toggleOff_leaves_enabled :
    check_siteId st0.siteIds "default" = true ∧
    (on_message soxOk detectNever st0 (InMessage.toggleOff "default")).1.enabled = true ∧
    (on_message soxOk detectNever st0 (InMessage.toggleOff "default")).2 = [] :=
  ⟨rfl, rfl, rfl⟩

/-- C5: starting a session with a non-empty free pool pops and reuses the
last pooled worker — the state is unchanged except for the pool, the session
registry and the first-audio flag; in particular the engine-construction
counter stays put and no fresh worker appears.  Moreover a worker's thread
(`transcribe_proc`) constructs exactly one engine over its whole lifetime,
however many session rounds it serves. -/
theorem pool_reuse_no_construction (st : AsrState) (sessionId siteId : String)
    (w : TranscriberInfo) (rest : List TranscriberInfo)
    (hno : alistLookup st.sessions sessionId = none)
    (hpool : popLast st.free_transcribers = some (w, rest)) :
    start_listening st sessionId siteId =
      ({ st with
          free_transcribers := rest,
          sessions := alistInsert st.sessions sessionId
            { w with ready_event := true, recorder_running := true },
          first_audio := true }, []) ∧
    ∀ rounds : List EngineOutcome, (transcribeProcRun rounds).constructions = 1 := by
  constructor
  · unfold start_listening
    simp [hno, hpool]
  · intro rounds
    simp [transcribeProcRun, transcribeProcLoop_constructions]

theorem pool_reuse_no_construction_witness :
    start_listening stPool "s9" "default" =
      ({ stPool with
          free_transcribers := [],
          sessions := alistInsert stPool.sessions "s9"
            { freshInfo with ready_event := true, recorder_running := true },
          first_audio := true }, []) :=
  (pool_reuse_no_construction stPool "s9" "default" freshInfo [] rfl rfl).1

/-- C6 (counterexample): with two open sessions, a frame whose format
conversion fails produces NO error event and is delivered to NO session —
the claim's "reported as an error event" and "does not prevent delivering
that frame to the other active sessions" both fail. -/
theorem convert_failure_cex :
    (on_message soxFail detectNever stTwo (InMessage.audioFrame "default" wavBad)).2
        = [] ∧
    (on_message soxFail detectNever stTwo
        (InMessage.audioFrame "default" wavBad)).1.sessions = stTwo.sessions :=
  ⟨rfl, rfl⟩

/-- C6 (amended): a failure of the external audio-format transform raises out
of `handle_audio_frame` before any session is touched; the exception is
swallowed at the message-dispatch boundary, so the handler emits no event of
any kind and changes nothing but the first-audio flag — the frame is
delivered to no session, and later frames are unaffected because the state
is otherwise intact. -/
theorem convert_failure_aborts_frame (sox : SoxCall → Except String Bytes)
    (detect : String → Bytes → Except String Bool) (st : AsrState)
    (siteId : String) (wav : WavData) (e : String)
    (henabled : st.enabled = true)
    (hsite : st.siteIds = [] ∨ st.siteIds.contains siteId = true)
    (hconv : maybe_convert_wav sox st.sample_rate st.sample_width st.channels wav =
      Except.error e) :
    on_message sox detect st (InMessage.audioFrame siteId wav) =
      ({ st with first_audio := false }, []) := by
  unfold on_message handle_audio_frame
  rcases hsite with h | h
  · simp [henabled, h, hconv]
  · have hm : siteId ∈ st.siteIds := by simpa using h
    simp [henabled, hm, hconv]

theorem convert_failure_aborts_frame_witness :
    on_message soxFail detectNever stOne (InMessage.audioFrame "default" wavBad) =
      ({ stOne with first_audio := false }, []) :=
  convert_failure_aborts_frame soxFail detectNever stOne "default" wavBad
    "CalledProcessError" rfl (Or.inl rfl) rfl

/-- C7: a frame whose embedded rate, width and channel count all match the
configured profile is returned as its raw payload with zero reformatter
invocations; a frame where any of the three differs triggers exactly one
reformatter invocation, parameterized with the configured rate, width in
bits (`width*8`) and channel count, whose output is returned. -/
theorem maybe_convert_wav_spec (sox : SoxCall → Except String Bytes)
    (sample_rate sample_width channels : Nat) (wav : WavData) :
    (wav.framerate = sample_rate → wav.sampwidth = sample_width →
      wav.nchannels = channels →
      maybe_convert_wav sox sample_rate sample_width channels wav =
        Except.ok (wav.frames, [])) ∧
    (wav.framerate ≠ sample_rate ∨ wav.sampwidth ≠ sample_width ∨
        wav.nchannels ≠ channels →
      maybe_convert_wav sox sample_rate sample_width channels wav =
        (sox ⟨sample_rate, sample_width * 8, channels, wav⟩).map
          (fun out => (out, [⟨sample_rate, sample_width * 8, channels, wav⟩]))) := by
  constructor
  · intro h1 h2 h3
    simp [maybe_convert_wav, h1, h2, h3]
  · intro h
    rw [maybe_convert_wav, if_pos h]
    rfl

theorem maybe_convert_wav_spec_witness :
    maybe_convert_wav soxOk 16000 2 1 wavGood = Except.ok (wavGood.frames, []) :=
  (maybe_convert_wav_spec soxOk 16000 2 1 wavGood).1 rfl rfl rfl

/-- C8: with a restricted site set configured, a `StartListening` (or
`StopListening`) whose `siteId` is outside the set changes no state and
emits no event of any kind; with no site set configured, every `siteId`
passes the filter. -/
theorem site_filter_blocks_control (sox : SoxCall → Except String Bytes)
    (detect : String → Bytes → Except String Bool) (st : AsrState)
    (sessionId siteId : String) :
    (st.siteIds ≠ [] → st.siteIds.contains siteId = false →
      on_message sox detect st (InMessage.startListening sessionId siteId) = (st, []) ∧
      on_message sox detect st (InMessage.stopListening sessionId siteId) = (st, [])) ∧
    (st.siteIds = [] → check_siteId st.siteIds siteId = true) := by
  constructor
  · intro hne hnc
    have hm : siteId ∉ st.siteIds := by simpa using hnc
    have hcheck : check_siteId st.siteIds siteId = false := by
      simp [check_siteId, hne, hm]
    constructor <;> (cases he : st.enabled <;> simp [on_message, he, hcheck, hm])
  · intro h
    simp [check_siteId, h]

theorem site_filter_blocks_control_witness :
    on_message soxOk detectNever stKitchen (InMessage.startListening "s9" "garage") =
      (stKitchen, []) :=
  ((site_filter_blocks_control soxOk detectNever stKitchen "s9" "garage").1
    (by decide) rfl).1

/-- C9: `stop_listening` for an unknown session is a complete no-op emitting
nothing; for an active session it removes the session from the registry,
yields exactly the Finalizer's events, and appends to the free pool the
worker with `result`, `result_event` and `result_sent` reset. -/
theorem stop_listening_spec (st : AsrState) (sessionId siteId : String)
    (hnd : (st.sessions.map Prod.fst).Nodup) :
    (alistLookup st.sessions sessionId = none →
      stop_listening st sessionId siteId = (st, [])) ∧
    ∀ info, alistLookup st.sessions sessionId = some info →
      alistLookup (stop_listening st sessionId siteId).1.sessions sessionId = none ∧
      (stop_listening st sessionId siteId).1.free_transcribers =
        st.free_transcribers ++
          [{ (finish_session info siteId sessionId).1 with
              result := none, result_event := false, result_sent := false }] ∧
      (stop_listening st sessionId siteId).2 =
        (finish_session info siteId sessionId).2 := by
  constructor
  · intro h
    simp [stop_listening, h]
  · intro info h
    refine ⟨?_, ?_, ?_⟩ <;> simp [stop_listening, h]
    exact alistLookup_remove_self _ _ hnd

theorem stop_listening_spec_witness :
    stop_listening st0 "nope" "default" = (st0, []) :=
  (stop_listening_spec st0 "nope" "default" (by decide)).1 rfl

/-- C10: in the per-session body of `handle_audio_frame`, the normalized
chunk is enqueued on the worker queue before the recorder is consulted, so
when the recorder reports end-of-command on that very chunk, the queue ends
with the chunk followed by the sentinel — the end-triggering frame is part
of the transcribed stream. -/
theorem chunk_enqueued_before_detector
    (detect : String → Bytes → Except String Bool) (audio_data : Bytes)
    (siteId sessionId : String) (info : TranscriberInfo)
    (hd : detect sessionId audio_data = Except.ok true)
    (hs : info.result_sent = false) :
    (handleOneSession detect audio_data siteId sessionId info).1.frame_queue =
      info.frame_queue ++ [some audio_data, none] := by
  unfold handleOneSession finish_session
  cases hr : info.result <;> simp [hd, hs, hr]

theorem chunk_enqueued_before_detector_witness :
    (handleOneSession detectAlways [5] "default" "s1" freshInfo).1.frame_queue =
      freshInfo.frame_queue ++ [some [5], none] :=
  chunk_enqueued_before_detector detectAlways [5] "default" "s1" freshInfo rfl rfl

/-! ## The exactly-once finalize development (C1) -/

theorem noneCount_append_some (q : List (Option Bytes)) (c : Bytes) :
    noneCount (q ++ [some c]) = noneCount q := by
  simp [noneCount]

theorem noneCount_append_none (q : List (Option Bytes)) :
    noneCount (q ++ [none]) = noneCount q + 1 := by
  simp [noneCount]

theorem finish_session_not_sent (info : TranscriberInfo) (siteId sessionId : String)
    (h : info.result_sent = false) :
    (finish_session info siteId sessionId).1.result_sent = true ∧
    noneCount (finish_session info siteId sessionId).1.frame_queue =
      noneCount info.frame_queue + 1 ∧
    countCaptured sessionId (finish_session info siteId sessionId).2 = 1 := by
  unfold finish_session
  cases hr : info.result <;>
    simp [h, hr, noneCount_append_none, countCaptured,
      OutEvent.isCaptured, OutEvent.sessionOf]

theorem finish_session_sent (info : TranscriberInfo) (siteId sessionId : String)
    (h : info.result_sent = true) :
    (finish_session info siteId sessionId).1 =
      { info with recorder_running := false } ∧
    (finish_session info siteId sessionId).2 = [] := by
  unfold finish_session
  simp [h]

theorem applyTrigger_fresh (sid : String) (st : AsrState) (t : SessionTrigger)
    (hnd : (st.sessions.map Prod.fst).Nodup) (hpool : poolOk st)
    (hA : phaseFresh sid st) :
    ((applyTrigger sid st t).1.sessions.map Prod.fst).Nodup ∧
    poolOk (applyTrigger sid st t).1 ∧
    (t.isFinalize sid = true →
      countCaptured sid (applyTrigger sid st t).2 = 1 ∧
      phaseDone sid (applyTrigger sid st t).1) ∧
    (t.isFinalize sid = false →
      countCaptured sid (applyTrigger sid st t).2 = 0 ∧
      phaseFresh sid (applyTrigger sid st t).1) := by
  obtain ⟨info, hlook, hsent, hnc⟩ := hA
  cases t with
  | stopMsg siteId =>
      obtain ⟨f1, f2, f3⟩ := finish_session_not_sent info siteId sid hsent
      have happ : applyTrigger sid st (SessionTrigger.stopMsg siteId) =
          ({ st with
              sessions := alistRemove st.sessions sid,
              free_transcribers := st.free_transcribers ++
                [{ (finish_session info siteId sid).1 with
                    result := none, result_event := false, result_sent := false }] },
            (finish_session info siteId sid).2) := by
        simp [applyTrigger, stop_listening, hlook]
      rw [happ]
      refine ⟨hnd.sublist (alistRemove_fst_sublist st.sessions sid), ?_, ?_, ?_⟩
      · intro w hw
        rcases List.mem_append.1 hw with hw | hw
        · exact hpool w hw
        · simp only [List.mem_singleton] at hw
          subst hw
          simpa using le_of_eq (by rw [f2, hnc])
      · intro _
        exact ⟨f3, Or.inr (alistLookup_remove_self st.sessions sid hnd)⟩
      · intro hb
        simp [SessionTrigger.isFinalize] at hb
  | frame siteId chunk detect =>
      have hkeys := handleSessions_fst detect chunk siteId st.sessions
      have hlk0 := handleSessions_lookup detect chunk siteId sid st.sessions
      have hcc0 := countCaptured_handleSessions detect chunk siteId sid st.sessions hnd
      rw [hlook] at hlk0 hcc0
      have hlk : alistLookup (handleSessions detect chunk siteId st.sessions).1 sid =
          some (handleOneSession detect chunk siteId sid info).1 := by
        rw [hlk0]; rfl
      have hcc : countCaptured sid (handleSessions detect chunk siteId st.sessions).2 =
          countCaptured sid (handleOneSession detect chunk siteId sid info).2 := by
        rw [hcc0]
      refine ⟨by simpa [applyTrigger, hkeys] using hnd, fun w hw => hpool w hw, ?_, ?_⟩
      · intro hb
        simp only [SessionTrigger.isFinalize] at hb
        cases hd : detect sid chunk with
        | error e => rw [hd] at hb; simp at hb
        | ok b =>
            cases b with
            | false => rw [hd] at hb; simp at hb
            | true =>
                have hone : handleOneSession detect chunk siteId sid info =
                    finish_session
                      { info with frame_queue := info.frame_queue ++ [some chunk] }
                      siteId sid := by
                  simp [handleOneSession, hd]
                obtain ⟨f1, f2, f3⟩ := finish_session_not_sent
                  { info with frame_queue := info.frame_queue ++ [some chunk] }
                  siteId sid hsent
                constructor
                · show countCaptured sid
                      (handleSessions detect chunk siteId st.sessions).2 = 1
                  rw [hcc, hone]
                  exact f3
                · refine Or.inl ⟨(handleOneSession detect chunk siteId sid info).1,
                    hlk, ?_, ?_⟩
                  · rw [hone]; exact f1
                  · rw [hone, f2]
                    simp [noneCount_append_some, hnc]
      · intro hb
        simp only [SessionTrigger.isFinalize] at hb
        have hone : (handleOneSession detect chunk siteId sid info).1 =
            { info with frame_queue := info.frame_queue ++ [some chunk] } ∧
            countCaptured sid (handleOneSession detect chunk siteId sid info).2 = 0 := by
          cases hd : detect sid chunk with
          | error e =>
              simp [handleOneSession, hd, countCaptured,
                OutEvent.isCaptured, OutEvent.sessionOf]
          | ok b =>
              cases b with
              | false => simp [handleOneSession, hd, countCaptured]
              | true => rw [hd] at hb; simp at hb
        constructor
        · show countCaptured sid (handleSessions detect chunk siteId st.sessions).2 = 0
          rw [hcc]; exact hone.2
        · refine ⟨(handleOneSession detect chunk siteId sid info).1, hlk, ?_, ?_⟩
          · rw [hone.1]; exact hsent
          · rw [hone.1]; simpa [noneCount_append_some] using hnc
  | workerDelivers tr =>
      have happ : applyTrigger sid st (SessionTrigger.workerDelivers tr) =
          ({ st with
              sessions := alistInsert st.sessions sid
                { info with result := some tr, result_event := true } }, []) := by
        simp [applyTrigger, hlook]
      rw [happ]
      refine ⟨?_, fun w hw => hpool w hw, ?_, ?_⟩
      · simpa [alistInsert_fst_of_lookup st.sessions sid _ info hlook] using hnd
      · intro hb
        simp [SessionTrigger.isFinalize] at hb
      · intro _
        exact ⟨rfl, ⟨{ info with result := some tr, result_event := true },
          alistLookup_insert_self st.sessions sid _, hsent, hnc⟩⟩

theorem applyTrigger_done (sid : String) (st : AsrState) (t : SessionTrigger)
    (hnd : (st.sessions.map Prod.fst).Nodup) (hpool : poolOk st)
    (hBC : phaseDone sid st) :
    ((applyTrigger sid st t).1.sessions.map Prod.fst).Nodup ∧
    poolOk (applyTrigger sid st t).1 ∧
    countCaptured sid (applyTrigger sid st t).2 = 0 ∧
    phaseDone sid (applyTrigger sid st t).1 := by
  rcases hBC with ⟨info, hlook, hsent, hnc⟩ | hnone
  · cases t with
    | stopMsg siteId =>
        obtain ⟨f1, f2⟩ := finish_session_sent info siteId sid hsent
        have happ : applyTrigger sid st (SessionTrigger.stopMsg siteId) =
            ({ st with
                sessions := alistRemove st.sessions sid,
                free_transcribers := st.free_transcribers ++
                  [{ (finish_session info siteId sid).1 with
                      result := none, result_event := false, result_sent := false }] },
              (finish_session info siteId sid).2) := by
          simp [applyTrigger, stop_listening, hlook]
        rw [happ]
        refine ⟨hnd.sublist (alistRemove_fst_sublist st.sessions sid), ?_, ?_, ?_⟩
        · intro w hw
          rcases List.mem_append.1 hw with hw | hw
          · exact hpool w hw
          · simp only [List.mem_singleton] at hw
            subst hw
            simp only [f1]
            simpa using le_of_eq hnc
        · rw [f2]; rfl
        · exact Or.inr (alistLookup_remove_self st.sessions sid hnd)
    | frame siteId chunk detect =>
        have hkeys := handleSessions_fst detect chunk siteId st.sessions
        have hlk0 := handleSessions_lookup detect chunk siteId sid st.sessions
        have hcc0 := countCaptured_handleSessions detect chunk siteId sid st.sessions hnd
        rw [hlook] at hlk0 hcc0
        have hlk : alistLookup (handleSessions detect chunk siteId st.sessions).1 sid =
            some (handleOneSession detect chunk siteId sid info).1 := by
          rw [hlk0]; rfl
        have hcc : countCaptured sid
            (handleSessions detect chunk siteId st.sessions).2 =
            countCaptured sid (handleOneSession detect chunk siteId sid info).2 := by
          rw [hcc0]
        have hone : (handleOneSession detect chunk siteId sid info).1.result_sent = true ∧
            noneCount (handleOneSession detect chunk siteId sid info).1.frame_queue = 1 ∧
            countCaptured sid (handleOneSession detect chunk siteId sid info).2 = 0 := by
          cases hd : detect sid chunk with
          | error e =>
              simp [handleOneSession, hd, hsent, noneCount_append_some, hnc,
                countCaptured, OutEvent.isCaptured, OutEvent.sessionOf]
          | ok b =>
              cases b with
              | false =>
                  simp [handleOneSession, hd, hsent, noneCount_append_some, hnc,
                    countCaptured]
              | true =>
                  simp only [handleOneSession, hd]
                  unfold finish_session
                  simp [hsent, noneCount_append_some, hnc, countCaptured]
        refine ⟨by simpa [applyTrigger, hkeys] using hnd,
          fun w hw => hpool w hw, ?_, ?_⟩
        · show countCaptured sid (handleSessions detect chunk siteId st.sessions).2 = 0
          rw [hcc]; exact hone.2.2
        · exact Or.inl ⟨(handleOneSession detect chunk siteId sid info).1, hlk,
            hone.1, hone.2.1⟩
    | workerDelivers tr =>
        have happ : applyTrigger sid st (SessionTrigger.workerDelivers tr) =
            ({ st with
                sessions := alistInsert st.sessions sid
                  { info with result := some tr, result_event := true } }, []) := by
          simp [applyTrigger, hlook]
        rw [happ]
        refine ⟨?_, fun w hw => hpool w hw, rfl, ?_⟩
        · simpa [alistInsert_fst_of_lookup st.sessions sid _ info hlook] using hnd
        · exact Or.inl ⟨{ info with result := some tr, result_event := true },
            alistLookup_insert_self st.sessions sid _, hsent, hnc⟩
  · cases t with
    | stopMsg siteId =>
        have happ : applyTrigger sid st (SessionTrigger.stopMsg siteId) = (st, []) := by
          simp [applyTrigger, stop_listening, hnone]
        rw [happ]
        exact ⟨hnd, hpool, rfl, Or.inr hnone⟩
    | frame siteId chunk detect =>
        have hkeys := handleSessions_fst detect chunk siteId st.sessions
        have hlk0 := handleSessions_lookup detect chunk siteId sid st.sessions
        have hcc0 := countCaptured_handleSessions detect chunk siteId sid st.sessions hnd
        rw [hnone] at hlk0 hcc0
        refine ⟨by simpa [applyTrigger, hkeys] using hnd,
          fun w hw => hpool w hw, ?_, ?_⟩
        · show countCaptured sid (handleSessions detect chunk siteId st.sessions).2 = 0
          rw [hcc0]
        · refine Or.inr ?_
          show alistLookup (handleSessions detect chunk siteId st.sessions).1 sid = none
          rw [hlk0]; rfl
    | workerDelivers tr =>
        have happ : applyTrigger sid st (SessionTrigger.workerDelivers tr) = (st, []) := by
          simp [applyTrigger, hnone]
        rw [happ]
        exact ⟨hnd, hpool, rfl, Or.inr hnone⟩

theorem runTriggers_done (sid : String) (ts : List SessionTrigger) :
    ∀ st : AsrState, (st.sessions.map Prod.fst).Nodup → poolOk st →
      phaseDone sid st →
      ((runTriggers sid st ts).1.sessions.map Prod.fst).Nodup ∧
      poolOk (runTriggers sid st ts).1 ∧
      countCaptured sid (runTriggers sid st ts).2 = 0 ∧
      phaseDone sid (runTriggers sid st ts).1 := by
  induction ts with
  | nil => exact fun st h1 h2 h3 => ⟨h1, h2, rfl, h3⟩
  | cons t ts ih =>
      intro st h1 h2 h3
      obtain ⟨g1, g2, g3, g4⟩ := applyTrigger_done sid st t h1 h2 h3
      obtain ⟨k1, k2, k3, k4⟩ := ih (applyTrigger sid st t).1 g1 g2 g4
      refine ⟨k1, k2, ?_, k4⟩
      show countCaptured sid ((applyTrigger sid st t).2 ++
        (runTriggers sid (applyTrigger sid st t).1 ts).2) = 0
      rw [countCaptured_append, g3, k3]

theorem runTriggers_fresh (sid : String) (ts : List SessionTrigger) :
    ∀ st : AsrState, (st.sessions.map Prod.fst).Nodup → poolOk st →
      phaseFresh sid st →
      ((runTriggers sid st ts).1.sessions.map Prod.fst).Nodup ∧
      poolOk (runTriggers sid st ts).1 ∧
      countCaptured sid (runTriggers sid st ts).2 =
        (if ts.any (fun t => t.isFinalize sid) then 1 else 0) ∧
      (ts.any (fun t => t.isFinalize sid) = true →
        phaseDone sid (runTriggers sid st ts).1) ∧
      (ts.any (fun t => t.isFinalize sid) = false →
        phaseFresh sid (runTriggers sid st ts).1) := by
  induction ts with
  | nil =>
      intro st h1 h2 h3
      exact ⟨h1, h2, rfl, by simp, fun _ => h3⟩
  | cons t ts ih =>
      intro st h1 h2 h3
      obtain ⟨g1, g2, gfin, gnofin⟩ := applyTrigger_fresh sid st t h1 h2 h3
      cases hb : t.isFinalize sid with
      | true =>
          obtain ⟨gc, gd⟩ := gfin hb
          obtain ⟨k1, k2, k3, k4⟩ := runTriggers_done sid ts (applyTrigger sid st t).1
            g1 g2 gd
          have hany : (t :: ts).any (fun t => t.isFinalize sid) = true := by
            simp [hb]
          refine ⟨k1, k2, ?_, fun _ => k4, fun hf => ?_⟩
          · show countCaptured sid ((applyTrigger sid st t).2 ++
              (runTriggers sid (applyTrigger sid st t).1 ts).2) = _
            rw [countCaptured_append, gc, k3]
            simp [hany]
          · rw [hany] at hf; cases hf
      | false =>
          obtain ⟨gc, gA⟩ := gnofin hb
          obtain ⟨k1, k2, k3, k4, k5⟩ := ih (applyTrigger sid st t).1 g1 g2 gA
          have hany : (t :: ts).any (fun t => t.isFinalize sid) =
              ts.any (fun t => t.isFinalize sid) := by
            simp [hb]
          refine ⟨k1, k2, ?_, ?_, ?_⟩
          · show countCaptured sid ((applyTrigger sid st t).2 ++
              (runTriggers sid (applyTrigger sid st t).1 ts).2) = _
            rw [countCaptured_append, gc, k3]
            simp [hany]
          · rw [hany]; exact k4
          · rw [hany]; exact k5

/-- C1: for an active session with a fresh worker, any combination, order
and repetition of explicit stops, routed audio frames (whose recorder
verdicts may signal end-of-command), and concurrent worker deliveries
yields `AsrTextCaptured` for that session exactly once — once if any
finalize trigger occurs, zero times otherwise; the surviving worker's
delivered flag equals whether a finalize trigger occurred, its queue holds
at most one end-of-stream sentinel, and every pooled worker holds at most
one sentinel. -/
theorem finalize_exactly_once (sid : String) (st : AsrState)
    (info : TranscriberInfo) (ts : List SessionTrigger)
    (hnd : (st.sessions.map Prod.fst).Nodup)
    (hpool : ∀ w ∈ st.free_transcribers, noneCount w.frame_queue ≤ 1)
    (hlook : alistLookup st.sessions sid = some info)
    (hsent : info.result_sent = false)
    (hnc : noneCount info.frame_queue = 0) :
    countCaptured sid (runTriggers sid st ts).2 =
      (if ts.any (fun t => t.isFinalize sid) then 1 else 0) ∧
    (∀ info', alistLookup (runTriggers sid st ts).1.sessions sid = some info' →
      noneCount info'.frame_queue ≤ 1 ∧
      info'.result_sent = ts.any (fun t => t.isFinalize sid)) ∧
    ∀ w ∈ (runTriggers sid st ts).1.free_transcribers,
      noneCount w.frame_queue ≤ 1 := by
  obtain ⟨g1, g2, g3, g4, g5⟩ :=
    runTriggers_fresh sid ts st hnd hpool ⟨info, hlook, hsent, hnc⟩
  refine ⟨g3, ?_, g2⟩
  intro info' hl
  cases hb : ts.any (fun t => t.isFinalize sid) with
  | true =>
      rcases g4 hb with ⟨i, hi, hs, hq⟩ | hnone
      · rw [hl] at hi
        cases hi
        exact ⟨le_of_eq hq, hs⟩
      · rw [hl] at hnone; cases hnone
  | false =>
      obtain ⟨i, hi, hs, hq⟩ := g5 hb
      rw [hl] at hi
      cases hi
      exact ⟨by rw [hq]; exact Nat.zero_le 1, hs⟩

theorem finalize_exactly_once_witness :
    countCaptured "s1" (runTriggers "s1" stOne tsW).2 =
      (if tsW.any (fun t => t.isFinalize "s1") then 1 else 0) :=
  (finalize_exactly_once "s1" stOne freshInfo tsW (by decide) (by decide)
    rfl rfl rfl).1

end Rhasspy
